import Mathlib

set_option maxHeartbeats 1000000

/-!
Shallow embedding of the gostatsd pipeline slice under verification: the backend
registry (`pkg/backends`), the Datadog backend client (`pkg/backends/datadog`), and
the cloud-enrichment handler (`CloudHandler`).  Go maps iterated with `Each` are
modelled as association lists in iteration order, goroutine/channel interactions as
explicit state machines, `uint64` counters as naturals kept modulo `2^64`, and the
behaviour of external collaborators (http library, zlib, transport pool, instance
cache) as explicitly supplied data.
-/

namespace Gostatsd

namespace Backends

/-- A Go `(value, error)` pair as returned by `GetBackend` / `InitBackend`:
`val` is the backend (`none` = nil), `err` the error message (`none` = nil). -/
structure GoResult (β : Type) where
  val : Option β
  err : Option String
deriving DecidableEq

/-- A backend factory as stored in the `backends` map: takes the config (abstracted
away) and returns `(gostatsd.Backend, error)`. -/
def Factory (β : Type) := Unit → GoResult β

/-- Go `%q` applied to a backend name: double-quotes the string (escaping is the
identity on the plain ASCII names backends use). -/
def goQuote (s : String) : String := "\"" ++ s ++ "\""

/-- `GetBackend` (pkg/backends): look the name up in the registry map; an unknown name
returns `(nil, nil)`, otherwise the factory is invoked.  The registry is a parameter
(in Go it is the package-level `backends` map). -/
def GetBackend (registry : List (String × Factory β)) (name : String) : GoResult β :=
  match registry.lookup name with
  | none => ⟨none, none⟩
  | some f => f ()

/-- `InitBackend` (pkg/backends): an empty name is a no-op; otherwise a factory error
is wrapped as `could not init backend %q: ...` and a nil backend without error is
reported as `unknown backend %q`. -/
def InitBackend (registry : List (String × Factory β)) (name : String) : GoResult β :=
  if name = "" then ⟨none, none⟩
  else
    let r := GetBackend registry name
    match r.err with
    | some e => ⟨none, some ("could not init backend " ++ goQuote name ++ ": " ++ e)⟩
    | none =>
      match r.val with
      | none => ⟨none, some ("unknown backend " ++ goQuote name)⟩
      | some b => ⟨some b, none⟩

/-- The null backend's factory (pkg/backends/null): always succeeds with a backend
that discards everything; the backend itself carries no state. -/
def nullFactory : Factory Unit := fun _ => ⟨some (), none⟩

/-- A registry for concrete evaluation: the null backend plus one backend whose
construction fails. -/
def sampleRegistry : List (String × Factory Unit) :=
  [("null", nullFactory), ("failing", fun _ => ⟨none, some "boom"⟩)]

end Backends

namespace Datadog

/-- Carrier for Go `float64` metric values.  None of the claims below computes with
values, so they are carried opaquely as rationals. -/
abbrev F64 := Rat

/-- `BackendName` (datadog.go). -/
def BackendName : String := "datadog"

/-- `dogstatsdVersion` (datadog.go). -/
def dogstatsdVersion : String := "5.6.3"

/-- `maxConcurrentEvents` (datadog.go). -/
def maxConcurrentEvents : Nat := 20

/-- `gostatsd.TimerSubtypes` as consumed via `d.disabledSubtypes` in `processMetrics`:
one disable flag per timer sub-metric. -/
structure TimerSubtypes where
  lower : Bool
  upper : Bool
  count : Bool
  countPerSecond : Bool
  mean : Bool
  median : Bool
  stdDev : Bool
  sum : Bool
  sumSquares : Bool
deriving DecidableEq

/-- A Go buffered channel of `*bytes.Buffer`, modelled by its capacity and the number
of buffers currently queued in it. -/
structure BufferChan where
  capacity : Nat
  buffers : Nat
deriving DecidableEq

/-- The Datadog `Client` struct (datadog.go).  The accumulated stats counters live in
`Stats` below; the embedded `*http.Client` behaviour is supplied by `HttpWorld`.
`maxRequestElapsedTime` and `flushInterval` are `time.Duration` values (nanoseconds,
`-1` meaning an unbounded retry budget). -/
structure Client where
  apiKey : String
  apiEndpoint : String
  userAgent : String
  maxRequestElapsedTime : Int
  metricsPerBatch : Nat
  metricsBufferSem : BufferChan
  eventsBufferSem : BufferChan
  compressPayload : Bool
  disabledSubtypes : TimerSubtypes
  flushInterval : Int
deriving DecidableEq

/-- The accumulated counters of the client: `batchesCreated`, `batchesDropped`,
`batchesSent`, `seriesSent` and `batchesRetried.Cur` (datadog.go). -/
structure Stats where
  batchesCreated : Nat
  batchesDropped : Nat
  batchesSent : Nat
  seriesSent : Nat
  batchesRetried : Nat
deriving DecidableEq

/-- `time.Duration.Seconds()`: nanoseconds to seconds. -/
def durationSeconds (d : Int) : F64 := (d : Rat) / 1000000000

/-- Behaviour of `pool.Get(transport)` (the transport pool is outside the excerpt):
`Except.ok` means an http client was obtained. -/
def PoolGet := String → Except String Unit

/-- `NewClient` (datadog.go): validate the configuration, fetch the transport, and
build the client, pre-filling the metrics buffer channel with `maxRequests` buffers
and the events buffer channel with `maxConcurrentEvents` buffers. -/
def NewClient (apiEndpoint apiKey userAgent transport : String) (metricsPerBatch : Int)
    (maxRequests : Nat) (compressPayload : Bool)
    (maxRequestElapsedTime flushInterval : Int) (disabled : TimerSubtypes)
    (poolGet : PoolGet) : Except String Client :=
  if apiEndpoint = "" then .error ("[" ++ BackendName ++ "] apiEndpoint is required")
  else if apiKey = "" then .error ("[" ++ BackendName ++ "] apiKey is required")
  else if userAgent = "" then .error ("[" ++ BackendName ++ "] user-agent is required")
  else if metricsPerBatch ≤ 0 then
    .error ("[" ++ BackendName ++ "] metricsPerBatch must be positive")
  else if maxRequestElapsedTime ≤ 0 ∧ maxRequestElapsedTime ≠ -1 then
    .error ("[" ++ BackendName ++ "] maxRequestElapsedTime must be positive")
  else
    match poolGet transport with
    | .error e => .error e
    | .ok _ =>
      .ok { apiKey, apiEndpoint, userAgent, maxRequestElapsedTime,
            metricsPerBatch := metricsPerBatch.toNat,
            metricsBufferSem := ⟨maxRequests, maxRequests⟩,
            eventsBufferSem := ⟨maxConcurrentEvents, maxConcurrentEvents⟩,
            compressPayload, disabledSubtypes := disabled, flushInterval }

/-- The Datadog series types (the `rate`, `gauge` and `counter` constants of the
backend). -/
inductive MetricType where
  | rate
  | gauge
  | counter
deriving DecidableEq

/-- A histogram bucket threshold: a finite `float64` or `+Inf`. -/
inductive HistogramThreshold where
  | finite (v : F64)
  | inf
deriving DecidableEq

/-- One configured percentile of a timer (`pct.Float`, `pct.Str`). -/
structure Percentile where
  float : F64
  str : String
deriving DecidableEq

/-- `gostatsd.Counter` as consumed by `processMetrics`. -/
structure Counter where
  perSecond : F64
  value : Int
  source : String
  tags : List String
deriving DecidableEq

/-- `gostatsd.Timer` as consumed by `processMetrics`.  `histogram = some buckets` when
histogram thresholds are configured (a Go `map[HistogramThreshold]int`, modelled as an
association list in iteration order). -/
structure Timer where
  min : F64
  max : F64
  count : Int
  perSecond : F64
  mean : F64
  median : F64
  stdDev : F64
  sum : F64
  sumSquares : F64
  percentiles : List Percentile
  histogram : Option (List (HistogramThreshold × Int))
  source : String
  tags : List String
deriving DecidableEq

/-- `gostatsd.Gauge` as consumed by `processMetrics`. -/
structure Gauge where
  value : F64
  source : String
  tags : List String
deriving DecidableEq

/-- `gostatsd.Set` as consumed by `processMetrics`. -/
structure SetMetric where
  values : List String
  source : String
  tags : List String
deriving DecidableEq

/-- A `gostatsd.MetricMap` snapshot, each container as iterated by `Each`
(`key`, `tagsKey`, value) in iteration order. -/
structure MetricMap where
  counters : List (String × String × Counter)
  timers : List (String × String × Timer)
  gauges : List (String × String × Gauge)
  sets : List (String × String × SetMetric)
deriving DecidableEq

/-- Modelled from the spec: one Datadog series as appended by the flush helper's
`addMetric` (the helper's source file is not part of the excerpt).  A series records
the series type, value, source host, tags and metric name; the per-flush
timestamp/interval payload fields are irrelevant to the claims and omitted. -/
structure Series where
  mtype : MetricType
  value : F64
  host : String
  tags : List String
  metric : String
deriving DecidableEq

/-- Modelled from the spec: the `flush` helper state that drives batching in
`processMetrics` (its source file is not part of the excerpt).  `ts` is the batch
under construction; `batches` records, in order, every batch handed to the callback
`cb`. -/
structure Flush where
  ts : List Series
  timestamp : F64
  flushIntervalSec : F64
  metricsPerBatch : Nat
  batches : List (List Series)
deriving DecidableEq

/-- Modelled from the spec: `addMetric` appends one series to the current batch. -/
def Flush.addMetric (f : Flush) (mtype : MetricType) (value : F64) (source : String)
    (tags : List String) (name : String) : Flush :=
  { f with ts := f.ts ++ [⟨mtype, value, source, tags, name⟩] }

/-- Modelled from the spec: `addMetricf` is `addMetric` with a printf-formatted name;
the call sites in `processMetrics` only use `%s` patterns, so the already-formatted
name is passed directly. -/
def Flush.addMetricf (f : Flush) (mtype : MetricType) (value : F64) (source : String)
    (tags : List String) (name : String) : Flush :=
  f.addMetric mtype value source tags name

/-- Modelled from the spec: `maybeFlush`, called by `processMetrics` after the series
of one input metric have been appended, hands the current batch to the callback and
starts a new one once `len(currentBatch) >= metricsPerBatch`. -/
def Flush.maybeFlush (f : Flush) : Flush :=
  if f.metricsPerBatch ≤ f.ts.length then { f with ts := [], batches := f.batches ++ [f.ts] }
  else f

/-- Modelled from the spec: a final `finish()` flushes any non-empty tail batch. -/
def Flush.finish (f : Flush) : List (List Series) :=
  if f.ts = [] then f.batches else f.batches ++ [f.ts]

/-- Stand-in for `strconv.FormatFloat(v, 'f', -1, 64)` on the opaque `F64` carrier. -/
def formatF64 (v : F64) : String := toString v

/-- The histogram bucket tag: `le:+Inf` for the open upper bucket, `le:<float>` for a
finite threshold (datadog.go). -/
def bucketTag : HistogramThreshold → String
  | .inf => "le:+Inf"
  | .finite v => "le:" ++ formatF64 v

/-- The body of the `metrics.Counters.Each` callback in `processMetrics` (datadog.go):
a rate series for `perSecond`, a gauge series for `<key>.count`, then `maybeFlush`. -/
def processCounter (fl : Flush) (key : String) (c : Counter) : Flush :=
  ((fl.addMetric .rate c.perSecond c.source c.tags key).addMetricf
      .gauge (c.value : Rat) c.source c.tags (key ++ ".count")).maybeFlush

/-- The body of the `metrics.Timers.Each` callback in `processMetrics` (datadog.go):
histogram buckets when configured, otherwise the non-disabled aggregate subtypes and
the percentiles; then `maybeFlush`. -/
def processTimer (d : Client) (fl : Flush) (key : String) (t : Timer) : Flush :=
  let fl :=
    match t.histogram with
    | some hist =>
      hist.foldl (fun (fl : Flush) (bucket : HistogramThreshold × Int) =>
        fl.addMetricf .counter (bucket.2 : Rat) t.source (t.tags ++ [bucketTag bucket.1])
          (key ++ ".histogram")) fl
    | none =>
      let fl := if !d.disabledSubtypes.lower then
        fl.addMetricf .gauge t.min t.source t.tags (key ++ ".lower") else fl
      let fl := if !d.disabledSubtypes.upper then
        fl.addMetricf .gauge t.max t.source t.tags (key ++ ".upper") else fl
      let fl := if !d.disabledSubtypes.count then
        fl.addMetricf .gauge (t.count : Rat) t.source t.tags (key ++ ".count") else fl
      let fl := if !d.disabledSubtypes.countPerSecond then
        fl.addMetricf .rate t.perSecond t.source t.tags (key ++ ".count_ps") else fl
      let fl := if !d.disabledSubtypes.mean then
        fl.addMetricf .gauge t.mean t.source t.tags (key ++ ".mean") else fl
      let fl := if !d.disabledSubtypes.median then
        fl.addMetricf .gauge t.median t.source t.tags (key ++ ".median") else fl
      let fl := if !d.disabledSubtypes.stdDev then
        fl.addMetricf .gauge t.stdDev t.source t.tags (key ++ ".std") else fl
      let fl := if !d.disabledSubtypes.sum then
        fl.addMetricf .gauge t.sum t.source t.tags (key ++ ".sum") else fl
      let fl := if !d.disabledSubtypes.sumSquares then
        fl.addMetricf .gauge t.sumSquares t.source t.tags (key ++ ".sum_squares") else fl
      t.percentiles.foldl (fun (fl : Flush) (pct : Percentile) =>
        fl.addMetricf .gauge pct.float t.source t.tags (key ++ "." ++ pct.str)) fl
  fl.maybeFlush

/-- The body of the `metrics.Gauges.Each` callback in `processMetrics` (datadog.go). -/
def processGauge (fl : Flush) (key : String) (g : Gauge) : Flush :=
  (fl.addMetric .gauge g.value g.source g.tags key).maybeFlush

/-- The body of the `metrics.Sets.Each` callback in `processMetrics` (datadog.go):
the set cardinality as a gauge. -/
def processSet (fl : Flush) (key : String) (s : SetMetric) : Flush :=
  (fl.addMetric .gauge (s.values.length : Rat) s.source s.tags key).maybeFlush

/-- `processMetrics` (datadog.go): walk the snapshot by metric type, appending series
and calling `maybeFlush` after each input metric, then `finish()`.  Returns the
batches handed to the callback, in order. -/
def processMetrics (d : Client) (now : F64) (metrics : MetricMap) : List (List Series) :=
  let fl : Flush := { ts := [], timestamp := now,
                      flushIntervalSec := durationSeconds d.flushInterval,
                      metricsPerBatch := d.metricsPerBatch, batches := [] }
  let fl := metrics.counters.foldl (fun fl e => processCounter fl e.1 e.2.2) fl
  let fl := metrics.timers.foldl (fun fl e => processTimer d fl e.1 e.2.2) fl
  let fl := metrics.gauges.foldl (fun fl e => processGauge fl e.1 e.2.2) fl
  let fl := metrics.sets.foldl (fun fl e => processSet fl e.1 e.2.2) fl
  fl.finish

/-- Append a list of series to the current batch (analysis helper). -/
def Flush.addAll (f : Flush) (ss : List Series) : Flush := { f with ts := f.ts ++ ss }

/-- The series contributed by one counter (analysis view of `processCounter`). -/
def counterGroup (key : String) (c : Counter) : List Series :=
  [⟨.rate, c.perSecond, c.source, c.tags, key⟩,
   ⟨.gauge, (c.value : Rat), c.source, c.tags, key ++ ".count"⟩]

/-- The series contributed by one timer (analysis view of `processTimer`). -/
def timerGroup (d : Client) (key : String) (t : Timer) : List Series :=
  match t.histogram with
  | some hist =>
    hist.map (fun bucket =>
      ⟨.counter, (bucket.2 : Rat), t.source, t.tags ++ [bucketTag bucket.1],
       key ++ ".histogram"⟩)
  | none =>
    (if !d.disabledSubtypes.lower then
      [⟨.gauge, t.min, t.source, t.tags, key ++ ".lower"⟩] else []) ++
    (if !d.disabledSubtypes.upper then
      [⟨.gauge, t.max, t.source, t.tags, key ++ ".upper"⟩] else []) ++
    (if !d.disabledSubtypes.count then
      [⟨.gauge, (t.count : Rat), t.source, t.tags, key ++ ".count"⟩] else []) ++
    (if !d.disabledSubtypes.countPerSecond then
      [⟨.rate, t.perSecond, t.source, t.tags, key ++ ".count_ps"⟩] else []) ++
    (if !d.disabledSubtypes.mean then
      [⟨.gauge, t.mean, t.source, t.tags, key ++ ".mean"⟩] else []) ++
    (if !d.disabledSubtypes.median then
      [⟨.gauge, t.median, t.source, t.tags, key ++ ".median"⟩] else []) ++
    (if !d.disabledSubtypes.stdDev then
      [⟨.gauge, t.stdDev, t.source, t.tags, key ++ ".std"⟩] else []) ++
    (if !d.disabledSubtypes.sum then
      [⟨.gauge, t.sum, t.source, t.tags, key ++ ".sum"⟩] else []) ++
    (if !d.disabledSubtypes.sumSquares then
      [⟨.gauge, t.sumSquares, t.source, t.tags, key ++ ".sum_squares"⟩] else []) ++
    t.percentiles.map (fun pct =>
      ⟨.gauge, pct.float, t.source, t.tags, key ++ "." ++ pct.str⟩)

/-- The series contributed by one gauge (analysis view of `processGauge`). -/
def gaugeGroup (key : String) (g : Gauge) : List Series :=
  [⟨.gauge, g.value, g.source, g.tags, key⟩]

/-- The series contributed by one set (analysis view of `processSet`). -/
def setGroup (key : String) (s : SetMetric) : List Series :=
  [⟨.gauge, (s.values.length : Rat), s.source, s.tags, key⟩]

/-- All series of the snapshot, grouped per input metric, in processing order. -/
def metricGroups (d : Client) (metrics : MetricMap) : List (List Series) :=
  metrics.counters.map (fun e => counterGroup e.1 e.2.2) ++
  metrics.timers.map (fun e => timerGroup d e.1 e.2.2) ++
  metrics.gauges.map (fun e => gaugeGroup e.1 e.2.2) ++
  metrics.sets.map (fun e => setGroup e.1 e.2.2)

/-- The largest number of series any single input metric contributes. -/
def maxGroupLen (d : Client) (metrics : MetricMap) : Nat :=
  (metricGroups d metrics).foldr (fun g acc => max g.length acc) 0

/-- A log line emitted through `d.logger`. -/
inductive LogLevel where
  | info
  | warn
deriving DecidableEq

/-- A log entry: its level and message (structured fields are not modelled). -/
structure LogEntry where
  level : LogLevel
  msg : String
deriving DecidableEq

/-- Outcome of one `d.client.Do(req)` call: a transport error, or a response with its
status code. -/
inductive DoOutcome where
  | netErr (msg : String)
  | response (statusCode : Nat)
deriving DecidableEq

/-- Behaviour of the Go http library and of the network, supplied as data:
`newRequestErr url` is the failure message of `http.NewRequest("POST", url, body)`
(`none` when request construction succeeds) and `doOutcome n` is the outcome of the
`n`-th `client.Do` call of this post. -/
structure HttpWorld where
  newRequestErr : String → Option String
  doOutcome : Nat → DoOutcome

/-- `authenticatedURL` (datadog.go): endpoint + path + `?api_key=<key>`
(`url.Values.Encode` percent-escaping is the identity on typical keys). -/
def authenticatedURL (d : Client) (path : String) : String :=
  d.apiEndpoint ++ path ++ "?api_key=" ++ d.apiKey

/-- The `doPost` closure built by `constructPost` (datadog.go), at its `i`-th
invocation: build the request, run it, classify the response.  Returns the attempt's
result and the log entries it emits.  A transport error message gets the api key
redacted via `strings.Replace(err.Error(), apiKey, "*****", -1)`; the request
construction error and the bad-status error are built without that replacement. -/
def doPost (d : Client) (w : HttpWorld) (url : String) (i : Nat) :
    Except String Unit × List LogEntry :=
  match w.newRequestErr url with
  | some e => (.error ("unable to create http.Request: " ++ e), [])
  | none =>
    match w.doOutcome i with
    | .netErr msg => (.error ("error POSTing: " ++ msg.replace d.apiKey "*****"), [])
    | .response code =>
      if code < 200 ∨ 204 < code then
        (.error ("received bad status code " ++ toString code), [⟨.info, "request failed"⟩])
      else
        (.ok (), [])

/-- The request headers set by `doPost` (datadog.go): three fixed headers, plus
`Content-Encoding: deflate` exactly when the payload was compressed. -/
def postHeaders (d : Client) (compressed : Bool) : List (String × String) :=
  [("Content-Type", "application/json"),
   ("DD-Dogstatsd-Version", dogstatsdVersion),
   ("User-Agent", d.userAgent)] ++
  (if compressed then [("Content-Encoding", "deflate")] else [])

/-- Behaviour of the zlib compressor (`compress/zlib`), supplied as data. -/
structure DeflateWorld where
  newWriterErr : Option String
  closeErr : Option String
  compress : List Nat → List Nat

/-- `deflate` (datadog.go): wrap the serializer in a zlib writer.  `payload` is the
outcome of running the serializer (the bytes it writes, or its error). -/
def deflate (dw : DeflateWorld) (payload : Except String (List Nat)) :
    Except String (List Nat) :=
  match dw.newWriterErr with
  | some e => .error ("unable to create zlib writer: " ++ e)
  | none =>
    match payload with
    | .error e => .error ("unable to write compressed payload: " ++ e)
    | .ok bs =>
      match dw.closeErr with
      | some e => .error ("unable to close compressor: " ++ e)
      | none => .ok (dw.compress bs)

/-- What `constructPost` fixes for one batch post: the authenticated URL, whether the
payload was compressed, the headers `doPost` will send, and the body bytes. -/
structure ConstructedPost where
  url : String
  compressed : Bool
  headers : List (String × String)
  body : List Nat

/-- `constructPost` (datadog.go): compress exactly when `compress_payload` is on and
this is a metrics post; marshal (through the compressor, when on); a serialization
failure is the non-retryable `[datadog] unable to marshal ...` error.  `marshalled` is
the outcome of the jsoniter marshal of `data`. -/
def constructPost (d : Client) (dw : DeflateWorld)
    (marshalled : Except String (List Nat)) (path typeOfPost : String) :
    Except String ConstructedPost :=
  let url := authenticatedURL d path
  let compressPayload := d.compressPayload && typeOfPost == "metrics"
  let res := if compressPayload then deflate dw marshalled else marshalled
  match res with
  | .error e =>
    .error ("[" ++ BackendName ++ "] unable to marshal " ++ typeOfPost ++ ": " ++ e)
  | .ok body => .ok ⟨url, compressPayload, postHeaders d compressPayload, body⟩

/-- The retry loop of `post` (datadog.go).  `sched` is the sequence of intervals the
exponential backoff yields before `backoff.Stop` (the budget `maxRequestElapsedTime`
makes it finite unless `-1`); `i` numbers the attempts.  On failure with backoff
remaining: WARN `failed to send`, sleep, increment `batchesRetried`, try again.  On
failure with the budget exhausted: increment `batchesDropped` once and return the
wrapped error. -/
def postLoop (d : Client) (w : HttpWorld) (url : String) (sched : List Int) (i : Nat)
    (st : Stats) (logs : List LogEntry) : Stats × List LogEntry × Except String Unit :=
  match (doPost d w url i).1 with
  | .ok _ =>
    ({ st with batchesSent := st.batchesSent + 1 }, logs ++ (doPost d w url i).2, .ok ())
  | .error e =>
    match sched with
    | [] =>
      ({ st with batchesDropped := st.batchesDropped + 1 }, logs ++ (doPost d w url i).2,
       .error ("[" ++ BackendName ++ "] " ++ e))
    | _ :: rest =>
      postLoop d w url rest (i + 1)
        { st with batchesRetried := st.batchesRetried + 1 }
        (logs ++ (doPost d w url i).2 ++ [⟨.warn, "failed to send"⟩])

/-- `post` (datadog.go): construct the post — a failure there increments
`batchesDropped` and returns the error immediately, with no attempt and no retry —
then run `doPost` under the backoff retry loop. -/
def post (d : Client) (w : HttpWorld) (dw : DeflateWorld)
    (marshalled : Except String (List Nat)) (path typeOfPost : String)
    (sched : List Int) (st : Stats) : Stats × List LogEntry × Except String Unit :=
  match constructPost d dw marshalled path typeOfPost with
  | .error e => ({ st with batchesDropped := st.batchesDropped + 1 }, [], .error e)
  | .ok cp => postLoop d w cp.url sched 0 st []

/-- Sequential determinisation of `SendMetricsAsync` (datadog.go): per batch,
`batchesCreated` is incremented and `postMetrics` runs (adding `seriesSent` on
success); the collector gathers one result per batch — nil for success — into `errs`
and hands `errs` to the callback.  A batch is given by its marshal outcome and its
series count. -/
def sendBatches (d : Client) (w : HttpWorld) (dw : DeflateWorld)
    (batches : List (Except String (List Nat) × Nat)) (sched : List Int) (st : Stats) :
    Stats × List (Option String) :=
  batches.foldl
    (fun acc batch =>
      let st1 := { acc.1 with batchesCreated := acc.1.batchesCreated + 1 }
      let r := post d w dw batch.1 "/api/v1/series" "metrics" sched st1
      match r.2.2 with
      | .ok _ => ({ r.1 with seriesSent := r.1.seriesSent + batch.2 }, acc.2 ++ [none])
      | .error e => (r.1, acc.2 ++ [some e]))
    (st, [])

/-- `postMetrics`' construction step: `post(ctx, buffer, "/api/v1/series", "metrics",
ts)` (datadog.go). -/
def constructMetricsPost (d : Client) (dw : DeflateWorld)
    (marshalled : Except String (List Nat)) : Except String ConstructedPost :=
  constructPost d dw marshalled "/api/v1/series" "metrics"

/-- `SendEvent`'s construction step: `post(ctx, buffer, "/api/v1/events", "events",
event)` (datadog.go). -/
def constructEventPost (d : Client) (dw : DeflateWorld)
    (marshalled : Except String (List Nat)) : Except String ConstructedPost :=
  constructPost d dw marshalled "/api/v1/events" "events"

/-- `pat` is a leading segment of `cs`. -/
def leadMatch : List Char → List Char → Bool
  | [], _ => true
  | _ :: _, [] => false
  | p :: ps, c :: cs => (p == c) && leadMatch ps cs

/-- `pat` occurs contiguously somewhere in `cs`. -/
def charsContain (pat : List Char) : List Char → Bool
  | [] => leadMatch pat []
  | c :: cs => leadMatch pat (c :: cs) || charsContain pat cs

/-- `pat` occurs somewhere in `s` (decidably, by character-list search). -/
def containsSubstring (s pat : String) : Bool := charsContain pat.data s.data

/-- The message of an error result (and `""` for a success). -/
def errMsgOf : Except String Unit → String
  | .error e => e
  | .ok _ => ""

/-- The result is an error. -/
def isErr : Except String Unit → Bool
  | .error _ => true
  | .ok _ => false

/-- All-zero counters. -/
def stats0 : Stats := ⟨0, 0, 0, 0, 0⟩

/-- No timer subtype disabled. -/
def sampleSubtypes : TimerSubtypes := ⟨false, false, false, false, false, false, false, false, false⟩

/-- A transport pool that always yields a client. -/
def samplePoolGet : PoolGet := fun _ => .ok ()

/-- The client `NewClient` builds for the sample configuration used in the concrete
evaluations below. -/
def builtClient : Client :=
  { apiKey := "SECRET", apiEndpoint := "http://api.example.com", userAgent := "gostatsd",
    maxRequestElapsedTime := 15000000000, metricsPerBatch := 1000,
    metricsBufferSem := ⟨4, 4⟩, eventsBufferSem := ⟨20, 20⟩, compressPayload := true,
    disabledSubtypes := sampleSubtypes, flushInterval := 1000000000 }

/-- `builtClient` with `metrics_per_batch` set to 1. -/
def tinyBatchClient : Client := { builtClient with metricsPerBatch := 1 }

/-- A snapshot holding exactly one counter. -/
def oneCounterMap : MetricMap :=
  ⟨[("requests", "a:1", ⟨1, 10, "h1", ["a:1"]⟩)], [], [], []⟩

/-- A zlib compressor that always works; compression itself is the identity on the
byte level of the model. -/
def idDeflate : DeflateWorld := ⟨none, none, fun bs => bs⟩

/-- An http world where requests construct fine and the server always answers 500. -/
def w500 : HttpWorld := ⟨fun _ => none, fun _ => .response 500⟩

/-- An http world where the transport always fails with an error that embeds the
request URL, as Go transport errors do. -/
def netErrWorld : HttpWorld :=
  ⟨fun _ => none,
   fun _ => .netErr "Post http://api.example.com/api/v1/series?api_key=SECRET: EOF"⟩

/-- An http world where `http.NewRequest` itself fails, its message embedding the
requested URL (as Go's `net/url` parse errors do). -/
def badRequestWorld : HttpWorld :=
  ⟨fun url => some ("parse \"" ++ url ++ "\": net/url: invalid control character in URL"),
   fun _ => .response 200⟩

/-- The post `constructMetricsPost builtClient idDeflate (.ok [1, 2, 3])` builds. -/
def builtMetricsPost : ConstructedPost :=
  ⟨"http://api.example.com/api/v1/series?api_key=SECRET", true,
   [("Content-Type", "application/json"), ("DD-Dogstatsd-Version", dogstatsdVersion),
    ("User-Agent", "gostatsd"), ("Content-Encoding", "deflate")], [1, 2, 3]⟩

/-- The post `constructEventPost builtClient idDeflate (.ok [1, 2, 3])` builds. -/
def builtEventPost : ConstructedPost :=
  ⟨"http://api.example.com/api/v1/events?api_key=SECRET", false,
   [("Content-Type", "application/json"), ("DD-Dogstatsd-Version", dogstatsdVersion),
    ("User-Agent", "gostatsd")], [1, 2, 3]⟩

end Datadog

namespace CloudHandler

/-- A `gostatsd.Source`: a hostname or IP string. -/
abbrev Source := String

/-- Modelled from the spec: the sentinel `UnknownSource` ("no source available"); its
concrete representation (the empty string upstream) is immaterial to the claims. -/
def UnknownSource : Source := ""

/-- The parts of a `gostatsd.Metric` the cloud handler reads or writes. -/
structure Metric where
  name : String
  source : Source
  tags : List String
deriving DecidableEq

/-- The parts of a `gostatsd.Event` the cloud handler reads or writes. -/
structure Event where
  title : String
  source : Source
  tags : List String
deriving DecidableEq

/-- `gostatsd.Instance`. -/
structure Instance where
  id : Source
  tags : List String
deriving DecidableEq

/-- Modelled from the spec: `AddTagsSetSource` of the `TagChanger` interface
(pkg/statsd/types.go) — append the instance tags and replace the source. -/
def Metric.addTagsSetSource (m : Metric) (additionalTags : List String)
    (newSource : Source) : Metric :=
  { m with tags := m.tags ++ additionalTags, source := newSource }

/-- Modelled from the spec: `AddTagsSetSource` for events. -/
def Event.addTagsSetSource (e : Event) (additionalTags : List String)
    (newSource : Source) : Event :=
  { e with tags := e.tags ++ additionalTags, source := newSource }

/-- `updateInplace` (cachedinstances.go) for a metric: only a positive cache hit
(`instance != nil`) mutates the object. -/
def updateInplaceMetric (m : Metric) : Option Instance → Metric
  | some inst => m.addTagsSetSource inst.tags inst.id
  | none => m

/-- `updateInplace` (cachedinstances.go) for an event. -/
def updateInplaceEvent (e : Event) : Option Instance → Event
  | some inst => e.addTagsSetSource inst.tags inst.id
  | none => e

/-- The cache's `Peek` behaviour: `none` = cache miss; `some oi` = cache hit with the
(possibly negative, `oi = none`) cached instance. -/
def Cache := Source → Option (Option Instance)

/-- The outcome of `getInstance` (cachedinstances.go) together with its observable
side effects: how the atomic hit/miss counters changed and whether `Peek` was
called. -/
structure GetInstanceResult where
  inst : Option Instance
  cacheHit : Bool
  hitDelta : Nat
  missDelta : Nat
  peeked : Bool
deriving DecidableEq

/-- `getInstance` (cachedinstances.go): `UnknownSource` short-circuits to a nil-
instance cache hit without consulting the cache or touching the counters. -/
def getInstance (cache : Cache) (ip : Source) : GetInstanceResult :=
  if ip = UnknownSource then ⟨none, true, 0, 0, false⟩
  else
    match cache ip with
    | none => ⟨none, false, 0, 1, true⟩
    | some inst => ⟨inst, true, 1, 0, true⟩

/-- The result of the cloud handler's `processMetrics` (cachedinstances.go): the
metrics dispatched downstream at once (the dispatch `MetricMap` abstracted to the list
of metrics received into it, in order), the `toHandle` slice sent to the Run loop, and
the hit/miss counter deltas. -/
structure ProcessMetricsResult where
  dispatched : List Metric
  toHandle : List Metric
  hitDelta : Nat
  missDelta : Nat
deriving DecidableEq

/-- The cloud handler's `processMetrics` (cachedinstances.go): cache hits are updated
in place and merged into the dispatch map; misses are buffered into `toHandle` for the
Run loop. -/
def processMetrics (cache : Cache) (metrics : List Metric) : ProcessMetricsResult :=
  metrics.foldl
    (fun acc m =>
      let r := getInstance cache m.source
      if r.cacheHit then
        { acc with dispatched := acc.dispatched ++ [updateInplaceMetric m r.inst],
                   hitDelta := acc.hitDelta + r.hitDelta,
                   missDelta := acc.missDelta + r.missDelta }
      else
        { acc with toHandle := acc.toHandle ++ [m],
                   hitDelta := acc.hitDelta + r.hitDelta,
                   missDelta := acc.missDelta + r.missDelta })
    ⟨[], [], 0, 0⟩

/-- The result of `DispatchEvent` (cachedinstances.go): either dispatched downstream
at once (possibly updated in place) or sent to the Run loop's `incomingEvents`. -/
structure DispatchEventResult where
  dispatchedNow : Option Event
  sentToRunLoop : Option Event
  hitDelta : Nat
  missDelta : Nat
deriving DecidableEq

/-- `DispatchEvent` (cachedinstances.go). -/
def DispatchEvent (cache : Cache) (e : Event) : DispatchEventResult :=
  let r := getInstance cache e.source
  if r.cacheHit then ⟨some (updateInplaceEvent e r.inst), none, r.hitDelta, r.missDelta⟩
  else ⟨none, some e, r.hitDelta, r.missDelta⟩

/-- `2^64`, the modulus of Go's `uint64` counters. -/
def u64Mod : Nat := 18446744073709551616

/-- Go `uint64` addition. -/
def u64Add (x n : Nat) : Nat := (x + n) % u64Mod

/-- Go `uint64` subtraction (wraps on underflow). -/
def u64Sub (x n : Nat) : Nat := (x + (u64Mod - n % u64Mod)) % u64Mod

/-- A Go `map[Source][]T`, as an association list; a missing key reads as an empty
slice. -/
abbrev QMap (α : Type) := List (Source × List α)

/-- Map lookup. -/
def qFind : QMap α → Source → Option (List α)
  | [], _ => none
  | e :: rest, s => if e.1 = s then some e.2 else qFind rest s

/-- Go map read (`m[s]`): a missing key yields the zero value. -/
def qGet (q : QMap α) (s : Source) : List α := (qFind q s).getD []

/-- Go map write (`m[s] = v`). -/
def qSet : QMap α → Source → List α → QMap α
  | [], s, v => [(s, v)]
  | e :: rest, s, v => if e.1 = s then (s, v) :: rest else e :: qSet rest s v

/-- Go map delete (`delete(m, s)`). -/
def qDel (q : QMap α) (s : Source) : QMap α := q.filter (fun e => !(e.1 == s))

/-- The state owned by `CloudHandler.Run` (cachedinstances.go): the scalar `uint64`
queue counters (kept modulo `2^64`), the pending queues, the lookup stack, and the
channel-send slot (`toLookupIP` with `toLookupC != nil`).  `requested` is ghost
environment state: the IPs sent on `ipSink` whose `InstanceInfo` has not yet come
back; it bounds which `instanceInfo` events the `CachedInstances` collaborator can
produce. -/
structure RunState where
  statsMetricItemsQueued : Nat
  statsMetricHostsQueued : Nat
  statsEventItemsQueued : Nat
  statsEventHostsQueued : Nat
  awaitingMetrics : QMap Metric
  awaitingEvents : QMap Event
  toLookupIPs : List Source
  lookupSlot : Option Source
  requested : List Source
deriving DecidableEq

/-- The Run loop's state at entry: empty maps, empty stack, `toLookupC = nil`. -/
def initialState : RunState := ⟨0, 0, 0, 0, [], [], [], none, []⟩

/-- One iteration of the loop inside `handleIncomingMetrics` (cachedinstances.go):
append the metric to its source's queue; on the first item for a source with no
pending metrics and no pending events, push the source on `toLookupIPs` and count a
queued metric host. -/
def handleIncomingMetric (st : RunState) (m : Metric) : RunState :=
  let queue := qGet st.awaitingMetrics m.source
  let st' := { st with awaitingMetrics := qSet st.awaitingMetrics m.source (queue ++ [m]) }
  if queue.length = 0 ∧ (qGet st.awaitingEvents m.source).length = 0 then
    { st' with toLookupIPs := st'.toLookupIPs ++ [m.source],
               statsMetricHostsQueued := u64Add st'.statsMetricHostsQueued 1 }
  else st'

/-- `handleIncomingMetrics` (cachedinstances.go). -/
def handleIncomingMetrics (st : RunState) (ms : List Metric) : RunState :=
  let st' := ms.foldl handleIncomingMetric st
  { st' with statsMetricItemsQueued := u64Add st'.statsMetricItemsQueued ms.length }

/-- `handleIncomingEvent` (cachedinstances.go). -/
def handleIncomingEvent (st : RunState) (e : Event) : RunState :=
  let queue := qGet st.awaitingEvents e.source
  let st' := { st with awaitingEvents := qSet st.awaitingEvents e.source (queue ++ [e]) }
  let st' :=
    if queue.length = 0 ∧ (qGet st'.awaitingMetrics e.source).length = 0 then
      { st' with toLookupIPs := st'.toLookupIPs ++ [e.source],
                 statsEventHostsQueued := u64Add st'.statsEventHostsQueued 1 }
    else st'
  { st' with statsEventItemsQueued := u64Add st'.statsEventItemsQueued 1 }

/-- `handleInstanceInfo` (cachedinstances.go): drain the non-empty pending queues for
`info.IP`, decrementing the corresponding counters (the dispatch goroutines it spawns
are downstream of these claims). -/
def handleInstanceInfo (st : RunState) (ip : Source) : RunState :=
  let metrics := qGet st.awaitingMetrics ip
  let st' :=
    if 0 < metrics.length then
      { st with awaitingMetrics := qDel st.awaitingMetrics ip,
                statsMetricItemsQueued := u64Sub st.statsMetricItemsQueued metrics.length,
                statsMetricHostsQueued := u64Sub st.statsMetricHostsQueued 1 }
    else st
  let events := qGet st'.awaitingEvents ip
  if 0 < events.length then
    { st' with awaitingEvents := qDel st'.awaitingEvents ip,
               statsEventItemsQueued := u64Sub st'.statsEventItemsQueued events.length,
               statsEventHostsQueued := u64Sub st'.statsEventHostsQueued 1 }
  else st'

/-- One ready branch of the `select` in `Run` (cachedinstances.go): `sendCompleted` is
the `toLookupC <- toLookupIP` send firing, `instanceInfo ip` a lookup result arriving
on `InfoSource()`, `emitStats` a `scheduleEmit` request (reads the scalar counters and
changes nothing). -/
inductive RunEvent where
  | sendCompleted
  | instanceInfo (ip : Source)
  | incomingMetrics (ms : List Metric)
  | incomingEvent (e : Event)
  | emitStats
deriving DecidableEq

/-- The branch dispatch of the `select` in `Run`: a completed send clears the slot
(`toLookupC = nil`) and makes the IP an outstanding request; an arriving
`InstanceInfo` answers one outstanding request. -/
def selectBranch (st : RunState) : RunEvent → RunState
  | .sendCompleted =>
    match st.lookupSlot with
    | some ip => { st with lookupSlot := none, requested := st.requested ++ [ip] }
    | none => st
  | .instanceInfo ip => { handleInstanceInfo st ip with requested := st.requested.erase ip }
  | .incomingMetrics ms => handleIncomingMetrics st ms
  | .incomingEvent e => handleIncomingEvent st e
  | .emitStats => st

/-- The post-`select` refill in `Run`: when `toLookupC` is nil and the stack is
non-empty, pop the top (last) IP into the send slot. -/
def refillLookup (st : RunState) : RunState :=
  match st.lookupSlot with
  | some _ => st
  | none =>
    match st.toLookupIPs.getLast? with
    | none => st
    | some ip => { st with toLookupIPs := st.toLookupIPs.dropLast, lookupSlot := some ip }

/-- One full iteration of the `Run` loop: one `select` branch, then the refill. -/
def runStep (st : RunState) (ev : RunEvent) : RunState := refillLookup (selectBranch st ev)

/-- Run the loop over a sequence of ready branches. -/
def runTrace (st : RunState) (evs : List RunEvent) : RunState := evs.foldl runStep st

/-- Which events can fire: the send branch only when the slot is loaded, and — per the
`CachedInstances` contract — an `InstanceInfo` only answers an outstanding request. -/
def validEvent (st : RunState) : RunEvent → Bool
  | .sendCompleted => st.lookupSlot.isSome
  | .instanceInfo ip => st.requested.contains ip
  | _ => true

/-- A sequence of ready branches the composed system can produce from `st`. -/
def validTrace : RunState → List RunEvent → Bool
  | _, [] => true
  | st, ev :: evs => validEvent st ev && validTrace (runStep st ev) evs

/-- Number of in-flight lookup obligations for `ip`: stack entries, the send slot, and
outstanding requests. -/
def inFlight (st : RunState) (ip : Source) : Nat :=
  st.toLookupIPs.count ip + (if st.lookupSlot = some ip then 1 else 0) +
    st.requested.count ip

/-- `ip` has pending work queued in either map. -/
def pendingFor (st : RunState) (ip : Source) : Bool :=
  !(qGet st.awaitingMetrics ip).isEmpty || !(qGet st.awaitingEvents ip).isEmpty

/-- The single-flight invariant of the Run loop: an IP has exactly one in-flight
lookup obligation while it has pending work, and none otherwise. -/
def Inv (st : RunState) : Prop :=
  ∀ ip, inFlight st ip = if pendingFor st ip then 1 else 0

/-- The number of distinct sources with a non-empty pending metric queue (what the
`cloudprovider.hosts_queued` `type:metric` gauge is supposed to report). -/
def metricHostsAwaiting (st : RunState) : Nat :=
  ((st.awaitingMetrics.filter (fun e => !e.2.isEmpty)).map Prod.fst).dedup.length

/-- The number of distinct sources with a non-empty pending event queue. -/
def eventHostsAwaiting (st : RunState) : Nat :=
  ((st.awaitingEvents.filter (fun e => !e.2.isEmpty)).map Prod.fst).dedup.length

/-- A metric from source 10.0.0.1. -/
def mX : Metric := ⟨"cpu", "10.0.0.1", []⟩

/-- An event from source 10.0.0.1. -/
def eX : Event := ⟨"deploy", "10.0.0.1", []⟩

/-- A metric with no source. -/
def mUnknown : Metric := ⟨"cpu", UnknownSource, []⟩

/-- An event with no source. -/
def eUnknown : Event := ⟨"deploy", UnknownSource, []⟩

/-- A cache whose every peek misses. -/
def coldCache : Cache := fun _ => none

/-- A well-formed Run-loop trace: a metric batch queues 10.0.0.1, the lookup request
is sent, and the lookup result arrives. -/
def singleLookupTrace : List RunEvent :=
  [.incomingMetrics [mX], .sendCompleted, .instanceInfo "10.0.0.1"]

/-- An event for 10.0.0.1, the lookup send, then a metric for the same source while
the event is still pending. -/
def mixedArrivalPrefix : List RunEvent :=
  [.incomingEvent eX, .sendCompleted, .incomingMetrics [mX]]

/-- `mixedArrivalPrefix` followed by the lookup result for 10.0.0.1. -/
def mixedArrivalTrace : List RunEvent :=
  mixedArrivalPrefix ++ [.instanceInfo "10.0.0.1"]

end CloudHandler

/-! ## Theorems -/

namespace Backends

/-- **C9.** `InitBackend` with an empty name returns `(nil, nil)` with no error;
with a name absent from the registry it returns a nil backend and the error
`unknown backend "<name>"`; with a known name whose factory fails it returns a nil
backend and an error prefixed `could not init backend`, distinguishing construction
failure from an unknown name. -/
theorem C9_initBackend (β : Type) (registry : List (String × Factory β)) :
    InitBackend registry "" = ⟨none, none⟩ ∧
    (∀ name, name ≠ "" → registry.lookup name = none →
      InitBackend registry name = ⟨none, some ("unknown backend " ++ goQuote name)⟩) ∧
    (∀ name f b e, name ≠ "" → registry.lookup name = some f → f () = ⟨b, some e⟩ →
      InitBackend registry name =
        ⟨none, some ("could not init backend " ++ goQuote name ++ ": " ++ e)⟩) := by
  refine ⟨by simp [InitBackend], ?_, ?_⟩
  · intro name hne hlk
    simp [InitBackend, GetBackend, hne, hlk]
  · intro name f b e hne hlk hf
    simp [InitBackend, GetBackend, hne, hlk, hf]

/-- Concrete run of C9: the empty name, an unregistered name, and a registered
factory that fails. -/
theorem C9_initBackend_witness :
    InitBackend sampleRegistry "" = ⟨none, none⟩ ∧
    InitBackend sampleRegistry "nope" = ⟨none, some "unknown backend \"nope\""⟩ ∧
    InitBackend sampleRegistry "failing" =
      ⟨none, some "could not init backend \"failing\": boom"⟩ := by
  have h := C9_initBackend Unit sampleRegistry
  exact ⟨h.1, h.2.1 "nope" (by decide) (by rfl),
         h.2.2 "failing" (fun _ => ⟨none, some "boom"⟩) none "boom" (by decide) (by rfl)
           (by rfl)⟩

end Backends

namespace Datadog

/-- **C8.** Every `max_requests` value `k` accepted by `NewClient` yields a client
whose metrics buffer channel has capacity `k` and is pre-filled with exactly `k`
buffers, and whose events buffer channel has capacity `maxConcurrentEvents = 20` and
is pre-filled with exactly that many buffers. -/
theorem C8_newClient_pools (apiEndpoint apiKey userAgent transport : String)
    (metricsPerBatch : Int) (maxRequests : Nat) (compressPayload : Bool)
    (maxRequestElapsedTime flushInterval : Int) (disabled : TimerSubtypes)
    (poolGet : PoolGet) (c : Client)
    (h : NewClient apiEndpoint apiKey userAgent transport metricsPerBatch maxRequests
        compressPayload maxRequestElapsedTime flushInterval disabled poolGet = .ok c) :
    c.metricsBufferSem.capacity = maxRequests ∧
    c.metricsBufferSem.buffers = maxRequests ∧
    c.eventsBufferSem.capacity = maxConcurrentEvents ∧
    c.eventsBufferSem.buffers = maxConcurrentEvents ∧
    maxConcurrentEvents = 20 := by
  unfold NewClient at h
  repeat (split at h <;> try simp only [reduceCtorEq] at h)
  simp only [Except.ok.injEq] at h
  subst h
  exact ⟨rfl, rfl, rfl, rfl, rfl⟩

/-- Concrete run of C8 at `max_requests = 4`. -/
theorem C8_newClient_pools_witness :
    builtClient.metricsBufferSem.capacity = 4 ∧
    builtClient.metricsBufferSem.buffers = 4 ∧
    builtClient.eventsBufferSem.capacity = maxConcurrentEvents ∧
    builtClient.eventsBufferSem.buffers = maxConcurrentEvents ∧
    maxConcurrentEvents = 20 :=
  C8_newClient_pools "http://api.example.com" "SECRET" "gostatsd" "default" 1000 4 true
    15000000000 1000000000 sampleSubtypes samplePoolGet builtClient (by rfl)

/-- **C7.** A successfully constructed post is deflate-compressed and carries a
`Content-Encoding: deflate` header if and only if `compress_payload` is enabled and it
is a metrics post; an event post is never compressed, whatever the setting. -/
theorem C7_compression (d : Client) (dw : DeflateWorld) (bs : List Nat)
    (cpm cpe : ConstructedPost)
    (hm : constructMetricsPost d dw (.ok bs) = .ok cpm)
    (he : constructEventPost d dw (.ok bs) = .ok cpe) :
    (cpm.compressed = d.compressPayload ∧
      ((("Content-Encoding", "deflate") ∈ cpm.headers) ↔ d.compressPayload = true) ∧
      cpm.body = (if d.compressPayload then dw.compress bs else bs)) ∧
    (cpe.compressed = false ∧ (("Content-Encoding", "deflate") ∉ cpe.headers) ∧
      cpe.body = bs) := by
  unfold constructMetricsPost constructPost deflate at hm
  unfold constructEventPost constructPost deflate at he
  simp only [String.reduceBEq, String.reduceEq, Bool.and_false, Bool.and_true, if_false,
    if_true, Bool.false_eq_true, reduceIte] at hm he
  constructor
  · cases hcp : d.compressPayload with
    | false =>
      rw [hcp] at hm
      simp only [Bool.false_eq_true, reduceIte, Except.ok.injEq] at hm
      subst hm
      simp [postHeaders]
    | true =>
      rw [hcp] at hm
      simp only [reduceIte] at hm
      cases hw : dw.newWriterErr with
      | some e => rw [hw] at hm; exact absurd hm (by simp)
      | none =>
        rw [hw] at hm
        cases hc : dw.closeErr with
        | some e => rw [hc] at hm; exact absurd hm (by simp)
        | none =>
          rw [hc] at hm
          simp only [Except.ok.injEq] at hm
          subst hm
          simp [postHeaders]
  · simp only [Except.ok.injEq] at he
    subst he
    simp [postHeaders]

/-- Concrete run of C7: with `compress_payload` on, the metrics post is compressed and
carries the header, the event post is not and does not. -/
theorem C7_compression_witness :
    (builtMetricsPost.compressed = builtClient.compressPayload ∧
      ((("Content-Encoding", "deflate") ∈ builtMetricsPost.headers) ↔
        builtClient.compressPayload = true) ∧
      builtMetricsPost.body =
        (if builtClient.compressPayload then idDeflate.compress [1, 2, 3] else [1, 2, 3])) ∧
    (builtEventPost.compressed = false ∧
      (("Content-Encoding", "deflate") ∉ builtEventPost.headers) ∧
      builtEventPost.body = [1, 2, 3]) :=
  C7_compression builtClient idDeflate [1, 2, 3] builtMetricsPost builtEventPost
    (by rfl) (by rfl)

/-- When every attempt fails, the retry loop consumes the whole backoff schedule,
registers one retry per schedule entry, then increments `batchesDropped` once and
returns the wrapped error of the final attempt. -/
theorem postLoop_allFail (d : Client) (w : HttpWorld) (url : String) (errAt : Nat → String)
    (hfail : ∀ j, (doPost d w url j).1 = Except.error (errAt j)) :
    ∀ (sched : List Int) (i : Nat) (st : Stats) (logs : List LogEntry),
      (postLoop d w url sched i st logs).1 =
        { st with batchesDropped := st.batchesDropped + 1,
                  batchesRetried := st.batchesRetried + sched.length } ∧
      (postLoop d w url sched i st logs).2.2 =
        Except.error ("[" ++ BackendName ++ "] " ++ errAt (i + sched.length)) := by
  intro sched
  induction sched with
  | nil =>
    intro i st logs
    obtain ⟨s1, s2, s3, s4, s5⟩ := st
    rw [postLoop, hfail i]
    simp
  | cons a rest ih =>
    intro i st logs
    obtain ⟨s1, s2, s3, s4, s5⟩ := st
    rw [postLoop, hfail i]
    have h := ih (i + 1) ⟨s1, s2, s3, s4, s5 + 1⟩
      (logs ++ (doPost d w url i).2 ++ [⟨.warn, "failed to send"⟩])
    refine ⟨h.1.trans ?_, h.2.trans ?_⟩
    · rw [show s5 + 1 + rest.length = s5 + (rest.length + 1) from by omega]
      rfl
    · rw [show i + 1 + rest.length = i + (rest.length + 1) from by omega]
      rfl

/-- `post` under an always-failing attempt with a successful construction. -/
theorem post_allFail (d : Client) (w : HttpWorld) (dw : DeflateWorld) (bs : List Nat)
    (path typeOfPost : String) (sched : List Int) (st : Stats) (cp : ConstructedPost)
    (errAt : Nat → String)
    (hcp : constructPost d dw (.ok bs) path typeOfPost = .ok cp)
    (hfail : ∀ j, (doPost d w cp.url j).1 = Except.error (errAt j)) :
    (post d w dw (.ok bs) path typeOfPost sched st).1 =
      { st with batchesDropped := st.batchesDropped + 1,
                batchesRetried := st.batchesRetried + sched.length } ∧
    (post d w dw (.ok bs) path typeOfPost sched st).2.2 =
      Except.error ("[" ++ BackendName ++ "] " ++ errAt sched.length) := by
  unfold post
  rw [hcp]
  have h := postLoop_allFail d w cp.url errAt hfail sched 0 st []
  rw [Nat.zero_add] at h
  exact h

/-- **C2.** When every post attempt for a batch fails (network error or non-2xx
status) and the backoff schedule bounded by `maxRequestElapsedTime` is exhausted,
`post` stops retrying, increments `batchesDropped` exactly once for that batch
(leaving `batchesSent` and `seriesSent` untouched), and the flush callback receives
exactly one non-nil error for the batch. -/
theorem C2_retry_exhaustion (d : Client) (w : HttpWorld) (dw : DeflateWorld)
    (bs : List Nat) (n : Nat) (sched : List Int) (st : Stats) (cp : ConstructedPost)
    (errAt : Nat → String)
    (hcp : constructMetricsPost d dw (.ok bs) = .ok cp)
    (hfail : ∀ j, (doPost d w cp.url j).1 = Except.error (errAt j)) :
    sendBatches d w dw [(.ok bs, n)] sched st =
      ({ st with batchesCreated := st.batchesCreated + 1,
                 batchesDropped := st.batchesDropped + 1,
                 batchesRetried := st.batchesRetried + sched.length },
       [some ("[" ++ BackendName ++ "] " ++ errAt sched.length)]) := by
  obtain ⟨s1, s2, s3, s4, s5⟩ := st
  have hp := post_allFail d w dw bs "/api/v1/series" "metrics" sched ⟨s1 + 1, s2, s3, s4, s5⟩
    cp errAt hcp hfail
  simp only [sendBatches, List.foldl_cons, List.foldl_nil]
  rw [hp.2, hp.1]
  simp

/-- Concrete run of C2: the server answers 500 forever, the backoff yields two
intervals; one batch, one drop, two retries, one non-nil callback error. -/
theorem C2_retry_exhaustion_witness :
    sendBatches builtClient w500 idDeflate [(.ok [1, 2, 3], 7)] [1, 2] stats0 =
      (⟨1, 1, 0, 0, 2⟩, [some "[datadog] received bad status code 500"]) :=
  C2_retry_exhaustion builtClient w500 idDeflate [1, 2, 3] 7 [1, 2] stats0
    builtMetricsPost (fun _ => "received bad status code 500") (by rfl) (fun _ => by rfl)

/-- **C3 (amended).** A marshal failure is non-retryable: `post` makes no attempt at
all (no send, no retry, and no log entry — in particular nothing at WARN), increments
`batchesDropped` exactly once, and returns the marshal error, which reaches the flush
callback like any other per-batch error. -/
theorem C3_marshal_failure (d : Client) (w : HttpWorld) (dw : DeflateWorld)
    (e path typeOfPost : String) (sched : List Int) (st : Stats) :
    (post d w dw (.error e) path typeOfPost sched st).1 =
      { st with batchesDropped := st.batchesDropped + 1 } ∧
    (post d w dw (.error e) path typeOfPost sched st).2.1 = [] ∧
    isErr (post d w dw (.error e) path typeOfPost sched st).2.2 = true := by
  cases h1 : (d.compressPayload && (typeOfPost == "metrics")) with
  | false => simp [post, constructPost, deflate, h1, isErr]
  | true =>
    cases h2 : dw.newWriterErr with
    | some e2 => simp [post, constructPost, deflate, h1, h2, isErr]
    | none => simp [post, constructPost, deflate, h1, h2, isErr]

/-- Refutation of C3 as stated: at a concrete marshal failure the backend logs
nothing at all (in particular nothing at WARN), and the error *is* returned from
`post`, flowing to the flush callback. -/
theorem C3_marshal_counterexample :
    (post builtClient w500 idDeflate (.error "gone") "/api/v1/series" "metrics" [1]
      stats0).2.1 = [] ∧
    (post builtClient w500 idDeflate (.error "gone") "/api/v1/series" "metrics" [1]
      stats0).2.2 =
      .error "[datadog] unable to marshal metrics: unable to write compressed payload: gone" :=
  ⟨rfl, rfl⟩

/-- **C4 (amended).** When request construction succeeds, the error paths of `doPost`
are safe: a transport (`client.Do`) error message is passed through
`strings.Replace(msg, apiKey, "*****", -1)` before being returned, and a bad-status
error mentions only the status code. -/
theorem C4_redaction (d : Client) (w : HttpWorld) (url : String) (i : Nat)
    (hreq : w.newRequestErr url = none) :
    (∀ m, w.doOutcome i = .netErr m →
      (doPost d w url i).1 = .error ("error POSTing: " ++ m.replace d.apiKey "*****")) ∧
    (∀ code, w.doOutcome i = .response code → (code < 200 ∨ 204 < code) →
      (doPost d w url i).1 = .error ("received bad status code " ++ toString code)) := by
  constructor
  · intro m hm
    simp [doPost, hreq, hm]
  · intro code hc hbad
    simp [doPost, hreq, hc, hbad]

/-- Concrete run of the amended C4: a transport error embedding the authenticated URL
is returned with the api key run through the `*****` replacement. -/
theorem C4_redaction_witness :
    (doPost builtClient netErrWorld (authenticatedURL builtClient "/api/v1/series") 0).1 =
      .error ("error POSTing: " ++
        ("Post http://api.example.com/api/v1/series?api_key=SECRET: EOF".replace
          builtClient.apiKey "*****")) :=
  (C4_redaction builtClient netErrWorld (authenticatedURL builtClient "/api/v1/series") 0
    (by rfl)).1 "Post http://api.example.com/api/v1/series?api_key=SECRET: EOF" (by rfl)

/-- Refutation of C4 as stated: when `http.NewRequest` fails, its message — which
embeds the authenticated URL and hence the api key — is wrapped and returned by the
post path without any redaction: the returned error still contains the raw key and no
`*****` marker. -/
theorem C4_counterexample :
    containsSubstring
      (errMsgOf (post builtClient badRequestWorld idDeflate (.ok [1]) "/api/v1/series"
        "metrics" [] stats0).2.2) builtClient.apiKey = true ∧
    containsSubstring
      (errMsgOf (post builtClient badRequestWorld idDeflate (.ok [1]) "/api/v1/series"
        "metrics" [] stats0).2.2) "*****" = false :=
  ⟨rfl, rfl⟩

/-- Appending twice appends the concatenation. -/
theorem addAll_addAll (f : Flush) (a b : List Series) :
    (f.addAll a).addAll b = f.addAll (a ++ b) := by
  cases f
  simp [Flush.addAll]

/-- Appending nothing is the identity. -/
theorem addAll_nil (f : Flush) : f.addAll [] = f := by
  cases f
  simp [Flush.addAll]

/-- `addMetricf` is appending one series. -/
theorem addMetricf_eq_addAll (f : Flush) (mt : MetricType) (v : F64) (s : String)
    (tg : List String) (n : String) :
    f.addMetricf mt v s tg n = f.addAll [⟨mt, v, s, tg, n⟩] := rfl

/-- `addMetric` is appending one series. -/
theorem addMetric_eq_addAll (f : Flush) (mt : MetricType) (v : F64) (s : String)
    (tg : List String) (n : String) :
    f.addMetric mt v s tg n = f.addAll [⟨mt, v, s, tg, n⟩] := rfl

/-- A guarded single-series append is appending a guarded singleton. -/
theorem addIf (p : Prop) [Decidable p] (f : Flush) (s : Series) :
    (if p then f.addAll [s] else f) = f.addAll (if p then [s] else []) := by
  split
  · rfl
  · exact (addAll_nil f).symm

/-- Two flushes with equal fields are equal. -/
theorem flushExt (f g : Flush) (h1 : f.ts = g.ts) (h2 : f.timestamp = g.timestamp)
    (h3 : f.flushIntervalSec = g.flushIntervalSec)
    (h4 : f.metricsPerBatch = g.metricsPerBatch) (h5 : f.batches = g.batches) :
    f = g := by
  cases f
  cases g
  simp_all

/-- `addAll` on the `ts` field. -/
theorem ts_addAll (f : Flush) (l : List Series) : (f.addAll l).ts = f.ts ++ l := rfl

/-- `addAll` leaves `timestamp` alone. -/
theorem timestamp_addAll (f : Flush) (l : List Series) :
    (f.addAll l).timestamp = f.timestamp := rfl

/-- `addAll` leaves `flushIntervalSec` alone. -/
theorem fis_addAll (f : Flush) (l : List Series) :
    (f.addAll l).flushIntervalSec = f.flushIntervalSec := rfl

/-- `addAll` leaves `metricsPerBatch` alone. -/
theorem mpb_addAll (f : Flush) (l : List Series) :
    (f.addAll l).metricsPerBatch = f.metricsPerBatch := rfl

/-- `addAll` leaves `batches` alone. -/
theorem batches_addAll (f : Flush) (l : List Series) :
    (f.addAll l).batches = f.batches := rfl

/-- A guarded tail append, list form. -/
theorem ite_append_single (p : Prop) [Decidable p] (a s : List Series) :
    (if p then a ++ s else a) = a ++ (if p then s else []) := by
  split <;> simp

/-- The histogram-bucket fold is one append of the mapped bucket list. -/
theorem foldl_addHist (src : String) (tags : List String) (key : String)
    (l : List (HistogramThreshold × Int)) :
    ∀ f : Flush,
      l.foldl (fun f bucket =>
        f.addAll [⟨.counter, (bucket.2 : Rat), src, tags ++ [bucketTag bucket.1],
          key ++ ".histogram"⟩]) f =
      f.addAll (l.map fun bucket =>
        ⟨.counter, (bucket.2 : Rat), src, tags ++ [bucketTag bucket.1],
         key ++ ".histogram"⟩) := by
  induction l with
  | nil => intro f; simp [addAll_nil]
  | cons x xs ih =>
    intro f
    simp only [List.foldl_cons, List.map_cons, ih, addAll_addAll, List.singleton_append]

/-- The percentiles fold is one append of the mapped percentile list. -/
theorem foldl_addPct (src : String) (tags : List String) (key : String)
    (l : List Percentile) :
    ∀ f : Flush,
      l.foldl (fun f pct =>
        f.addAll [⟨.gauge, pct.float, src, tags, key ++ "." ++ pct.str⟩]) f =
      f.addAll (l.map fun pct =>
        ⟨.gauge, pct.float, src, tags, key ++ "." ++ pct.str⟩) := by
  induction l with
  | nil => intro f; simp [addAll_nil]
  | cons x xs ih =>
    intro f
    simp only [List.foldl_cons, List.map_cons, ih, addAll_addAll, List.singleton_append]

/-- `processCounter` through the group view. -/
theorem processCounter_eq (fl : Flush) (key : String) (c : Counter) :
    processCounter fl key c = (fl.addAll (counterGroup key c)).maybeFlush := by
  unfold processCounter counterGroup
  rw [addMetric_eq_addAll, addMetricf_eq_addAll, addAll_addAll]
  rfl

/-- `processGauge` through the group view. -/
theorem processGauge_eq (fl : Flush) (key : String) (g : Gauge) :
    processGauge fl key g = (fl.addAll (gaugeGroup key g)).maybeFlush := rfl

/-- `processSet` through the group view. -/
theorem processSet_eq (fl : Flush) (key : String) (s : SetMetric) :
    processSet fl key s = (fl.addAll (setGroup key s)).maybeFlush := rfl

/-- `processTimer` through the group view. -/
theorem processTimer_eq (d : Client) (fl : Flush) (key : String) (t : Timer) :
    processTimer d fl key t = (fl.addAll (timerGroup d key t)).maybeFlush := by
  unfold processTimer timerGroup
  cases ht : t.histogram with
  | some hist =>
    simp only [addMetricf_eq_addAll, foldl_addHist]
  | none =>
    simp only [addMetricf_eq_addAll, foldl_addPct]
    apply congrArg Flush.maybeFlush
    apply flushExt <;>
      simp only [ts_addAll, timestamp_addAll, fis_addAll, mpb_addAll, batches_addAll,
        apply_ite Flush.ts, apply_ite Flush.timestamp, apply_ite Flush.flushIntervalSec,
        apply_ite Flush.metricsPerBatch, apply_ite Flush.batches, ite_append_single,
        ite_self]
    all_goals simp [List.append_assoc]

/-- `processMetrics` is the fold of `append group, maybeFlush` over the per-metric
groups, finished with `finish()`. -/
theorem processMetrics_eq_groups (d : Client) (now : F64) (m : MetricMap) :
    processMetrics d now m =
      ((metricGroups d m).foldl (fun (fl : Flush) (g : List Series) => (fl.addAll g).maybeFlush)
        { ts := [], timestamp := now, flushIntervalSec := durationSeconds d.flushInterval,
          metricsPerBatch := d.metricsPerBatch, batches := [] }).finish := by
  unfold processMetrics metricGroups
  simp only [List.foldl_append, List.foldl_map, processCounter_eq, processTimer_eq,
    processGauge_eq, processSet_eq]

/-- `maybeFlush` keeps the configured batch size. -/
theorem maybeFlush_mpb (f : Flush) : (f.maybeFlush).metricsPerBatch = f.metricsPerBatch := by
  unfold Flush.maybeFlush
  split <;> rfl

/-- The invariant of the batching fold: the current batch stays strictly below
`metricsPerBatch`, and every emitted batch stays below `metricsPerBatch - 1` plus the
largest group size. -/
theorem foldGroups_inv (mpb G : Nat) (hmpb : 1 ≤ mpb) :
    ∀ (groups : List (List Series)) (fl : Flush),
      fl.metricsPerBatch = mpb → (∀ g ∈ groups, g.length ≤ G) →
      fl.ts.length ≤ mpb - 1 → (∀ b ∈ fl.batches, b.length ≤ mpb - 1 + G) →
      (groups.foldl (fun (fl : Flush) (g : List Series) => (fl.addAll g).maybeFlush) fl).metricsPerBatch = mpb ∧
      (groups.foldl (fun (fl : Flush) (g : List Series) => (fl.addAll g).maybeFlush) fl).ts.length ≤ mpb - 1 ∧
      ∀ b ∈ (groups.foldl (fun (fl : Flush) (g : List Series) => (fl.addAll g).maybeFlush) fl).batches,
        b.length ≤ mpb - 1 + G := by
  intro groups
  induction groups with
  | nil =>
    intro fl h1 _ h3 h4
    exact ⟨h1, h3, h4⟩
  | cons g gs ih =>
    intro fl h1 h2 h3 h4
    rw [List.foldl_cons]
    apply ih
    · rw [maybeFlush_mpb]
      exact h1
    · intro g' hg'
      exact h2 g' (List.mem_cons_of_mem g hg')
    · unfold Flush.maybeFlush Flush.addAll
      split
      · simp
      · rename_i hlt
        simp only [List.length_append] at hlt ⊢
        rw [h1] at hlt
        omega
    · intro b hb
      unfold Flush.maybeFlush Flush.addAll at hb
      split at hb
      · simp only [List.mem_append, List.mem_singleton] at hb
        rcases hb with hb | hb
        · exact h4 b hb
        · subst hb
          simp only [List.length_append]
          have := h2 g (List.mem_cons_self g gs)
          omega
      · exact h4 b hb

/-- The batching fold loses no series: emitted batches plus the current batch hold
exactly the series appended so far, in order. -/
theorem foldGroups_join :
    ∀ (groups : List (List Series)) (fl : Flush),
      ((groups.foldl (fun (fl : Flush) (g : List Series) => (fl.addAll g).maybeFlush) fl).batches).flatten ++
        (groups.foldl (fun (fl : Flush) (g : List Series) => (fl.addAll g).maybeFlush) fl).ts =
      fl.batches.flatten ++ fl.ts ++ groups.flatten := by
  intro groups
  induction groups with
  | nil => intro fl; simp
  | cons g gs ih =>
    intro fl
    rw [List.foldl_cons, ih, List.flatten_cons]
    unfold Flush.maybeFlush Flush.addAll
    split
    · simp
    · simp

/-- `finish()` emits exactly the accumulated batches plus the (possibly empty) tail. -/
theorem finish_join (f : Flush) : (f.finish).flatten = f.batches.flatten ++ f.ts := by
  unfold Flush.finish
  split
  · simp_all
  · simp

/-- Membership in `finish()`: an accumulated batch or the non-empty tail. -/
theorem mem_finish (f : Flush) (b : List Series) (hb : b ∈ f.finish) :
    b ∈ f.batches ∨ b = f.ts := by
  unfold Flush.finish at hb
  split at hb
  · exact Or.inl hb
  · simp only [List.mem_append, List.mem_singleton] at hb
    exact hb

/-- Every group is bounded by the running maximum. -/
theorem length_le_foldr_max (l : List (List Series)) :
    ∀ g ∈ l, g.length ≤ l.foldr (fun g acc => max g.length acc) 0 := by
  induction l with
  | nil => intro g hg; cases hg
  | cons x xs ih =>
    intro g hg
    rcases List.mem_cons.1 hg with hg | hg
    · subst hg
      exact le_max_left _ _
    · exact le_trans (ih g hg) (le_max_right _ _)

/-- **C1 (amended).** For `metricsPerBatch ≥ 1`, every batch `processMetrics` hands to
its callback contains at most `metricsPerBatch - 1 + G` series, where `G` is the
largest number of series a single input metric contributes (2 for a counter, 1 for a
gauge or set, bucket/subtype count for a timer) — the size check runs only after all
series of an input metric are appended — and the batches together carry exactly the
serialized series in order: the final `finish()` flushes the non-empty tail. -/
theorem C1_batching (d : Client) (now : F64) (m : MetricMap)
    (hmpb : 1 ≤ d.metricsPerBatch) :
    (∀ b ∈ processMetrics d now m,
      b.length ≤ d.metricsPerBatch - 1 + maxGroupLen d m) ∧
    (processMetrics d now m).flatten = (metricGroups d m).flatten := by
  rw [processMetrics_eq_groups]
  have hinv := foldGroups_inv d.metricsPerBatch (maxGroupLen d m) hmpb (metricGroups d m)
    { ts := [], timestamp := now, flushIntervalSec := durationSeconds d.flushInterval,
      metricsPerBatch := d.metricsPerBatch, batches := [] }
    rfl (length_le_foldr_max (metricGroups d m)) (by simp) (by simp)
  constructor
  · intro b hb
    rcases mem_finish _ b hb with hb | hb
    · exact hinv.2.2 b hb
    · subst hb
      have := hinv.2.1
      omega
  · rw [finish_join, foldGroups_join]
    simp

/-- Concrete run of the amended C1: one counter with `metrics_per_batch = 1` yields a
single two-series batch — within the amended bound `1 - 1 + 2`. -/
theorem C1_batching_witness :
    (∀ b ∈ processMetrics tinyBatchClient 0 oneCounterMap,
      b.length ≤ tinyBatchClient.metricsPerBatch - 1 + maxGroupLen tinyBatchClient oneCounterMap) ∧
    (processMetrics tinyBatchClient 0 oneCounterMap).flatten =
      (metricGroups tinyBatchClient oneCounterMap).flatten :=
  C1_batching tinyBatchClient 0 oneCounterMap (by decide)

/-- Refutation of C1 as stated: with `metrics_per_batch = 1` a single counter already
produces a batch of two series (the rate and the `.count` gauge are both appended
before the size check runs), so a batch can exceed `metricsPerBatch`. -/
theorem C1_counterexample :
    (processMetrics tinyBatchClient 0 oneCounterMap).map List.length = [2] ∧
    tinyBatchClient.metricsPerBatch = 1 ∧
    ¬ (∀ b ∈ processMetrics tinyBatchClient 0 oneCounterMap,
        b.length ≤ tinyBatchClient.metricsPerBatch) := by
  refine ⟨by rfl, by rfl, ?_⟩
  decide

end Datadog

namespace CloudHandler

/-- **C6.** A metric or event whose source is `UnknownSource` bypasses cloud
enrichment: `getInstance` reports a cache hit with a nil instance without calling
`Peek` and without touching the hit/miss counters, so the item is dispatched
downstream unchanged, is never put on a pending queue, and never triggers a lookup. -/
theorem C6_unknownSource_bypass (cache : Cache) (m : Metric) (e : Event)
    (hm : m.source = UnknownSource) (he : e.source = UnknownSource) :
    getInstance cache UnknownSource = ⟨none, true, 0, 0, false⟩ ∧
    processMetrics cache [m] = ⟨[m], [], 0, 0⟩ ∧
    DispatchEvent cache e = ⟨some e, none, 0, 0⟩ := by
  refine ⟨by simp [getInstance, UnknownSource], ?_, ?_⟩
  · simp [processMetrics, getInstance, hm, UnknownSource, updateInplaceMetric]
  · simp [DispatchEvent, getInstance, he, UnknownSource, updateInplaceEvent]

/-- Concrete run of C6 on a cold cache. -/
theorem C6_unknownSource_bypass_witness :
    getInstance coldCache UnknownSource = ⟨none, true, 0, 0, false⟩ ∧
    processMetrics coldCache [mUnknown] = ⟨[mUnknown], [], 0, 0⟩ ∧
    DispatchEvent coldCache eUnknown = ⟨some eUnknown, none, 0, 0⟩ :=
  C6_unknownSource_bypass coldCache mUnknown eUnknown (by rfl) (by rfl)

/-- Reading back through a map write. -/
theorem qFind_qSet {α : Type} (q : QMap α) (s t : Source) (v : List α) :
    qFind (qSet q s v) t = if t = s then some v else qFind q t := by
  induction q with
  | nil =>
    by_cases h : t = s
    · subst h
      simp [qSet, qFind]
    · simp [qSet, qFind, h, Ne.symm h]
  | cons e rest ih =>
    by_cases h1 : e.1 = s
    · by_cases h2 : t = s
      · subst h2
        simp [qSet, qFind, h1]
      · have h3 : ¬(s = t) := fun hh => h2 hh.symm
        have h4 : ¬(e.1 = t) := h1 ▸ h3
        simp [qSet, qFind, h1, h2, h3, h4]
    · by_cases h2 : t = s
      · subst h2
        have h4 : ¬(e.1 = t) := h1
        simp [qSet, qFind, h1, h4, ih]
      · by_cases h5 : e.1 = t
        · simp [qSet, qFind, h1, h2, h5]
        · simp [qSet, qFind, h1, h2, h5, ih]

/-- Reading back through a map delete. -/
theorem qFind_qDel {α : Type} (q : QMap α) (s t : Source) :
    qFind (qDel q s) t = if t = s then none else qFind q t := by
  induction q with
  | nil =>
    simp only [qDel, List.filter_nil, qFind]
    split <;> rfl
  | cons e rest ih =>
    simp only [qDel, List.filter_cons] at ih ⊢
    by_cases h1 : e.1 = s
    · have hb : (!(e.1 == s)) = false := by simp [h1]
      rw [hb]
      simp only [Bool.false_eq_true, if_false]
      rw [ih]
      by_cases h2 : t = s
      · simp [h2]
      · have h4 : ¬(e.1 = t) := by rw [h1]; exact fun hh => h2 hh.symm
        simp [qFind, h2, h4]
    · have hb : (!(e.1 == s)) = true := by simp [h1]
      rw [hb]
      simp only [if_true, qFind]
      by_cases h5 : e.1 = t
      · have h2 : ¬(t = s) := fun hh => h1 (by rw [h5, hh])
        simp [h5, h2]
      · rw [if_neg h5, ih]
        by_cases h2 : t = s
        · simp [h2]
        · simp [h2, qFind, h5]

/-- Reading back through a map write, zero-value view. -/
theorem qGet_qSet {α : Type} (q : QMap α) (s t : Source) (v : List α) :
    qGet (qSet q s v) t = if t = s then v else qGet q t := by
  unfold qGet
  rw [qFind_qSet]
  split <;> rfl

/-- Reading back through a map delete, zero-value view. -/
theorem qGet_qDel {α : Type} (q : QMap α) (s t : Source) :
    qGet (qDel q s) t = if t = s then [] else qGet q t := by
  unfold qGet
  rw [qFind_qDel]
  split <;> rfl

/-- `handleIncomingMetric` preserves the single-flight invariant: a source is pushed
on `toLookupIPs` exactly when it had no pending work. -/
theorem inv_handleIncomingMetric (st : RunState) (m : Metric) (h : Inv st) :
    Inv (handleIncomingMetric st m) := by
  intro ip
  simp only [handleIncomingMetric]
  split
  · rename_i hc
    obtain ⟨hc1, hc2⟩ := hc
    rw [List.length_eq_zero] at hc1 hc2
    by_cases hip : ip = m.source
    · subst hip
      have hsrc := h m.source
      unfold inFlight pendingFor at hsrc ⊢
      rw [hc1, hc2] at hsrc
      simp only [List.isEmpty_nil, Bool.not_true, Bool.or_self, Bool.false_eq_true,
        if_false] at hsrc
      dsimp only
      rw [qGet_qSet, if_pos rfl, hc1, hc2]
      simp only [List.nil_append, List.count_append, List.count_cons, List.count_nil,
        beq_self_eq_true, if_true, List.isEmpty_cons, Bool.not_false, Bool.true_or]
      omega
    · have hother := h ip
      unfold inFlight pendingFor at hother ⊢
      dsimp only
      rw [qGet_qSet, if_neg hip]
      have hne : (m.source == ip) = false := by
        simp [Ne.symm hip]
      simp only [List.count_append, List.count_cons, List.count_nil, hne,
        Bool.false_eq_true, if_false]
      omega
  · rename_i hc
    by_cases hip : ip = m.source
    · subst hip
      have hp : (!(qGet st.awaitingMetrics m.source).isEmpty ||
          !(qGet st.awaitingEvents m.source).isEmpty) = true := by
        by_cases hq : qGet st.awaitingMetrics m.source = []
        · have he : ¬(qGet st.awaitingEvents m.source = []) := by
            intro he
            exact hc ⟨by simp [hq], by simp [he]⟩
          simp [hq, he]
        · simp [hq]
      have hsrc := h m.source
      unfold inFlight pendingFor at hsrc ⊢
      rw [hp, if_pos rfl] at hsrc
      dsimp only
      rw [qGet_qSet, if_pos rfl]
      have hne : ((qGet st.awaitingMetrics m.source ++ [m]).isEmpty) = false := by
        simp
      rw [hne]
      simp only [Bool.not_false, Bool.true_or, if_true]
      omega
    · have hother := h ip
      unfold inFlight pendingFor at hother ⊢
      dsimp only
      rw [qGet_qSet, if_neg hip]
      exact hother

/-- `handleIncomingMetrics` preserves the single-flight invariant. -/
theorem inv_handleIncomingMetrics (st : RunState) (ms : List Metric) (h : Inv st) :
    Inv (handleIncomingMetrics st ms) := by
  have hfold : ∀ (ms : List Metric) (st : RunState), Inv st →
      Inv (ms.foldl handleIncomingMetric st) := by
    intro ms
    induction ms with
    | nil => intro st h; exact h
    | cons x xs ih => intro st h; exact ih _ (inv_handleIncomingMetric st x h)
  intro ip
  have hf := hfold ms st h ip
  simp only [handleIncomingMetrics]
  unfold inFlight pendingFor at hf ⊢
  dsimp only
  exact hf

/-- `handleIncomingEvent` preserves the single-flight invariant. -/
theorem inv_handleIncomingEvent (st : RunState) (e : Event) (h : Inv st) :
    Inv (handleIncomingEvent st e) := by
  intro ip
  simp only [handleIncomingEvent]
  split
  · rename_i hc
    obtain ⟨hc1, hc2⟩ := hc
    rw [List.length_eq_zero] at hc1 hc2
    by_cases hip : ip = e.source
    · subst hip
      have hsrc := h e.source
      unfold inFlight pendingFor at hsrc ⊢
      rw [hc1, hc2] at hsrc
      simp only [List.isEmpty_nil, Bool.not_true, Bool.or_self, Bool.false_eq_true,
        if_false] at hsrc
      dsimp only
      rw [qGet_qSet, if_pos rfl, hc1, hc2]
      simp only [List.nil_append, List.count_append, List.count_cons, List.count_nil,
        beq_self_eq_true, if_true, List.isEmpty_cons, Bool.not_false, Bool.or_true]
      omega
    · have hother := h ip
      unfold inFlight pendingFor at hother ⊢
      dsimp only
      rw [qGet_qSet, if_neg hip]
      have hne : (e.source == ip) = false := by
        simp [Ne.symm hip]
      simp only [List.count_append, List.count_cons, List.count_nil, hne,
        Bool.false_eq_true, if_false]
      omega
  · rename_i hc
    by_cases hip : ip = e.source
    · subst hip
      have hp : (!(qGet st.awaitingMetrics e.source).isEmpty ||
          !(qGet st.awaitingEvents e.source).isEmpty) = true := by
        by_cases hq : qGet st.awaitingEvents e.source = []
        · have he : ¬(qGet st.awaitingMetrics e.source = []) := by
            intro he
            exact hc ⟨by simp [hq], by simp [he]⟩
          simp [hq, he]
        · simp [hq]
      have hsrc := h e.source
      unfold inFlight pendingFor at hsrc ⊢
      rw [hp, if_pos rfl] at hsrc
      dsimp only
      rw [qGet_qSet, if_pos rfl]
      have hne : ((qGet st.awaitingEvents e.source ++ [e]).isEmpty) = false := by
        simp
      rw [hne]
      simp only [Bool.not_false, Bool.or_true, if_true]
      omega
    · have hother := h ip
      unfold inFlight pendingFor at hother ⊢
      dsimp only
      rw [qGet_qSet, if_neg hip]
      exact hother

/-- Field view of `handleInstanceInfo`: the lookup bookkeeping is untouched and both
pending queues for the answered IP read empty afterwards. -/
theorem handleInstanceInfo_fields (st : RunState) (ip0 : Source) :
    (handleInstanceInfo st ip0).toLookupIPs = st.toLookupIPs ∧
    (handleInstanceInfo st ip0).lookupSlot = st.lookupSlot ∧
    (handleInstanceInfo st ip0).requested = st.requested ∧
    (∀ t, qGet (handleInstanceInfo st ip0).awaitingMetrics t =
      if t = ip0 then [] else qGet st.awaitingMetrics t) ∧
    (∀ t, qGet (handleInstanceInfo st ip0).awaitingEvents t =
      if t = ip0 then [] else qGet st.awaitingEvents t) := by
  simp only [handleInstanceInfo]
  split
  · split
    · refine ⟨rfl, rfl, rfl, ?_, ?_⟩
      · intro t
        dsimp only
        rw [qGet_qDel]
      · intro t
        dsimp only
        rw [qGet_qDel]
    · rename_i he
      dsimp only at he
      refine ⟨rfl, rfl, rfl, ?_, ?_⟩
      · intro t
        dsimp only
        rw [qGet_qDel]
      · intro t
        dsimp only
        by_cases ht : t = ip0
        · subst ht
          rw [if_pos rfl]
          exact List.length_eq_zero.mp (by omega)
        · rw [if_neg ht]
  · rename_i hm
    split
    · refine ⟨rfl, rfl, rfl, ?_, ?_⟩
      · intro t
        dsimp only
        by_cases ht : t = ip0
        · subst ht
          rw [if_pos rfl]
          exact List.length_eq_zero.mp (by omega)
        · rw [if_neg ht]
      · intro t
        dsimp only
        rw [qGet_qDel]
    · rename_i he
      refine ⟨rfl, rfl, rfl, ?_, ?_⟩
      · intro t
        by_cases ht : t = ip0
        · subst ht
          rw [if_pos rfl]
          exact List.length_eq_zero.mp (by omega)
        · rw [if_neg ht]
      · intro t
        by_cases ht : t = ip0
        · subst ht
          rw [if_pos rfl]
          exact List.length_eq_zero.mp (by omega)
        · rw [if_neg ht]

/-- An answered lookup clears the pending queues and the outstanding request for its
IP together, preserving the single-flight invariant. -/
theorem inv_instanceInfo (st : RunState) (ip0 : Source) (h : Inv st)
    (hreq : st.requested.contains ip0 = true) :
    Inv { handleInstanceInfo st ip0 with requested := st.requested.erase ip0 } := by
  obtain ⟨hT, hS, hR, hM, hE⟩ := handleInstanceInfo_fields st ip0
  have hcount : 1 ≤ st.requested.count ip0 :=
    List.count_pos_iff.mpr (List.mem_of_elem_eq_true hreq)
  intro ip
  unfold inFlight pendingFor
  dsimp only
  rw [hT, hS, hM ip, hE ip]
  by_cases hip : ip = ip0
  · subst hip
    have hsrc := h ip
    unfold inFlight pendingFor at hsrc
    have hzero :
        st.toLookupIPs.count ip = 0 ∧
        (if st.lookupSlot = some ip then 1 else 0) = 0 ∧
        st.requested.count ip = 1 := by
      cases hb : (!(qGet st.awaitingMetrics ip).isEmpty ||
          !(qGet st.awaitingEvents ip).isEmpty) with
      | false =>
        rw [hb] at hsrc
        simp only [Bool.false_eq_true, if_false] at hsrc
        omega
      | true =>
        rw [hb] at hsrc
        simp only [eq_self_iff_true, if_true] at hsrc
        omega
    obtain ⟨hz1, hz2, hz3⟩ := hzero
    rw [if_pos rfl, if_pos rfl]
    simp only [List.isEmpty_nil, Bool.not_true, Bool.or_self, Bool.false_eq_true,
      if_false, hz1, hz2, List.count_erase_self, hz3]
  · have hother := h ip
    unfold inFlight pendingFor at hother
    rw [if_neg hip, if_neg hip, List.count_erase_of_ne hip]
    exact hother

/-- A completed `ipSink` send moves the slot IP to the outstanding requests,
preserving the single-flight invariant. -/
theorem inv_sendCompleted (st : RunState) (h : Inv st) :
    Inv (selectBranch st .sendCompleted) := by
  unfold selectBranch
  cases hslot : st.lookupSlot with
  | none => exact h
  | some s =>
    intro ip
    have hother := h ip
    unfold inFlight pendingFor at hother ⊢
    dsimp only
    rw [hslot] at hother
    by_cases hsip : s = ip
    · subst hsip
      simp only [List.count_append, List.count_cons, List.count_nil, beq_self_eq_true,
        if_true, Option.some.injEq, reduceCtorEq, if_false] at hother ⊢
      omega
    · have hne : (s == ip) = false := by simp [hsip]
      simp only [List.count_append, List.count_cons, List.count_nil, hne,
        Bool.false_eq_true, if_false, Option.some.injEq, hsip, reduceCtorEq] at hother ⊢
      omega

/-- The post-`select` refill moves the top of the stack into the slot, preserving the
single-flight invariant. -/
theorem inv_refillLookup (st : RunState) (h : Inv st) : Inv (refillLookup st) := by
  unfold refillLookup
  cases hslot : st.lookupSlot with
  | some s => exact h
  | none =>
    cases hlast : st.toLookupIPs.getLast? with
    | none => exact h
    | some x =>
      have hconcat : st.toLookupIPs.dropLast ++ [x] = st.toLookupIPs :=
        List.dropLast_append_getLast? x (by rw [hlast]; rfl)
      intro ip
      have hother := h ip
      unfold inFlight pendingFor at hother ⊢
      dsimp only
      rw [hslot, ← hconcat, List.count_append] at hother
      by_cases hxip : x = ip
      · subst hxip
        simp only [List.count_cons, List.count_nil, beq_self_eq_true, if_true,
          Option.some.injEq, reduceCtorEq, if_false] at hother ⊢
        omega
      · have hne : (x == ip) = false := by simp [hxip]
        simp only [List.count_cons, List.count_nil, hne, Bool.false_eq_true, if_false,
          Option.some.injEq, hxip, reduceCtorEq] at hother ⊢
        omega

/-- Any valid `select` branch preserves the single-flight invariant. -/
theorem inv_selectBranch (st : RunState) (ev : RunEvent) (h : Inv st)
    (hvalid : validEvent st ev = true) : Inv (selectBranch st ev) := by
  cases ev with
  | sendCompleted => exact inv_sendCompleted st h
  | instanceInfo ip0 => exact inv_instanceInfo st ip0 h hvalid
  | incomingMetrics ms => exact inv_handleIncomingMetrics st ms h
  | incomingEvent e => exact inv_handleIncomingEvent st e h
  | emitStats => exact h

/-- One valid Run-loop iteration preserves the single-flight invariant. -/
theorem inv_runStep (st : RunState) (ev : RunEvent) (h : Inv st)
    (hvalid : validEvent st ev = true) : Inv (runStep st ev) :=
  inv_refillLookup _ (inv_selectBranch st ev h hvalid)

/-- The single-flight invariant holds along every valid trace. -/
theorem inv_runTrace :
    ∀ (evs : List RunEvent) (st : RunState), Inv st → validTrace st evs = true →
      Inv (runTrace st evs) := by
  intro evs
  induction evs with
  | nil => intro st h _; exact h
  | cons ev evs ih =>
    intro st h hv
    simp only [validTrace, Bool.and_eq_true] at hv
    simp only [runTrace, List.foldl_cons]
    exact ih _ (inv_runStep st ev h hv.1) hv.2

/-- The empty start state satisfies the single-flight invariant. -/
theorem inv_initialState : Inv initialState := by
  intro ip
  simp [initialState, inFlight, pendingFor, qGet, qFind]

/-- **C5.** Along every sequence of incoming metrics, events, and instance-info
results the Run loop can process (instance-info only answering an outstanding
lookup, per the `CachedInstances` contract), each IP occurs at most once on
`toLookupIPs`: an IP is pushed only on the first metric or event for it while both
its pending lists are empty. -/
theorem C5_single_flight (evs : List RunEvent)
    (hvalid : validTrace initialState evs = true) (ip : Source) :
    (runTrace initialState evs).toLookupIPs.count ip ≤ 1 := by
  have h := inv_runTrace evs initialState inv_initialState hvalid ip
  unfold inFlight at h
  cases hb : pendingFor (runTrace initialState evs) ip with
  | false =>
    rw [hb] at h
    simp only [Bool.false_eq_true, if_false] at h
    omega
  | true =>
    rw [hb] at h
    simp only [eq_self_iff_true, if_true] at h
    omega

/-- Concrete run of C5: queue a metric, send the lookup, receive the answer; the
stack never holds 10.0.0.1 twice. -/
theorem C5_single_flight_witness :
    validTrace initialState singleLookupTrace = true ∧
    (runTrace initialState singleLookupTrace).toLookupIPs.count "10.0.0.1" ≤ 1 :=
  ⟨by rfl, C5_single_flight singleLookupTrace (by rfl) "10.0.0.1"⟩

/-- **C10 evaluation.** The failing interleaving: an event for 10.0.0.1 queues it and
increments the event-hosts counter; the lookup is sent; a metric for the same source
arrives — queued without incrementing `statsMetricHostsQueued`, because the event
queue is non-empty; the lookup result then drains the metric queue and decrements
`statsMetricHostsQueued`, underflowing the `uint64` to `2^64 - 1` although no source
has a pending metric queue (the gauge should read 0). -/
theorem C10_hosts_queued_underflow :
    validTrace initialState mixedArrivalTrace = true ∧
    metricHostsAwaiting (runTrace initialState mixedArrivalPrefix) = 1 ∧
    (runTrace initialState mixedArrivalPrefix).statsMetricHostsQueued = 0 ∧
    (runTrace initialState mixedArrivalTrace).statsMetricHostsQueued = u64Mod - 1 ∧
    metricHostsAwaiting (runTrace initialState mixedArrivalTrace) = 0 := by
  refine ⟨?_, ?_, ?_, ?_, ?_⟩ <;> rfl

end CloudHandler

end Gostatsd
